import Mathlib

/-!
# Verification of the Wing Chun Revolution backend core

Shallow embedding of `src/schemas.py` (pydantic validation layer) and
`src/main.py` (document serialization and the Progress upsert) of the
e-learning backend. Python dicts are modelled as association lists over an
untyped `Value` type; pydantic validation is modelled per field, collecting
the error locations of every failing field, as pydantic v2 does; MongoDB
ObjectIds are modelled as naturals; wall-clock readings (`datetime.now`)
are modelled as explicit timestamp arguments, one per `now()` call in the
source.
-/

namespace WCR

/-- Untyped JSON-ish values as they appear in request bodies and store
documents. `vId` models a MongoDB ObjectId, `vTime` a datetime; the only
array-typed fields in the source are `List[str]`, so arrays carry strings. -/
inductive Value where
  | vNull : Value
  | vStr (s : String) : Value
  | vInt (n : Int) : Value
  | vRat (q : Rat) : Value
  | vBool (b : Bool) : Value
  | vList (l : List String) : Value
  | vId (n : Nat) : Value
  | vTime (t : Nat) : Value
deriving DecidableEq, Repr

open Value

/-- A Python dict, as an association list (keys are unique in actual dicts). -/
abbrev Doc := List (String × Value)

/-- Dict key lookup (first occurrence). -/
def lookupField (d : Doc) (k : String) : Option Value :=
  match d with
  | [] => none
  | (k2, v) :: rest => if k2 = k then some v else lookupField rest k

/-- `d.pop(k)`: the dict with every entry for `k` removed (dicts hold at
most one). -/
def removeKey (d : Doc) (k : String) : Doc :=
  d.filter (fun p => p.1 ≠ k)

/-- `d[k] = v`: replace the value in place when the key exists, else append. -/
def setKey (d : Doc) (k : String) (v : Value) : Doc :=
  if d.any (fun p => p.1 = k) then
    d.map (fun p => if p.1 = k then (k, v) else p)
  else
    d ++ [(k, v)]

/-- Python `str(...)` on the values it is applied to in the source: only
store identifiers (ObjectIds) are ever rendered in `serialize_doc`; the
remaining clauses are the plausible renderings and are never relied on. -/
def pyStr : Value → String
  | vNull => "None"
  | vStr s => s
  | vInt n => toString n
  | vRat q => toString q
  | vBool b => if b then "True" else "False"
  | vList _ => "[...]"
  | vId n => toString n
  | vTime t => toString t

/-- `serialize_doc` from `src/main.py` lines 27-33: empty (falsy) dicts are
returned as-is; otherwise, when an `_id` key is present it is popped and a
public `id` key holding its string form is assigned. -/
def serialize_doc (doc : Doc) : Doc :=
  if doc = [] then doc
  else
    match lookupField doc "_id" with
    | some v => setKey (removeKey doc "_id") "id" (vStr (pyStr v))
    | none => doc

/-- Exact-match filter check: every (field, value) pair of the filter is
present verbatim in the document. -/
def matchesFilter (filt : Doc) (d : Doc) : Bool :=
  filt.all (fun p => decide (lookupField d p.1 = some p.2))

/-- The generic store state: collection name to list of documents, in
store-native order. -/
abbrev Store := String → List Doc

/-- Modelled from the spec: `get_documents` lives in `database.py`, which is
not under `src/`. Per the spec it "returns up to `limit` records matching an
exact-match filter (mapping of field → required value), in store-native
order". -/
def get_documents (store : Store) (coll : String) (filt : Doc) (limit : Nat) : List Doc :=
  (((store coll).filter (fun d => matchesFilter filt d)).take limit)

/-- `GET /api/videos` handler body (`list_videos`, `src/main.py` 91-94). -/
def list_videos (store : Store) (limit : Nat) : List Doc :=
  (get_documents store "video" [] limit).map serialize_doc

/-- `GET /api/progress/{user_id}` handler body (`src/main.py` 102-105). -/
def get_user_progress (store : Store) (user_id : String) (limit : Nat) : List Doc :=
  (get_documents store "progress" [("user_id", vStr user_id)] limit).map serialize_doc

/-- `GET /api/forum/posts` handler body (`list_posts`, `src/main.py` 126-129). -/
def list_posts (store : Store) (limit : Nat) : List Doc :=
  (get_documents store "forumpost" [] limit).map serialize_doc

/-! ## Validation layer (`src/schemas.py`)

Each pydantic field is validated independently; a failed model validation
carries the list of the offending fields' names (pydantic's per-error
`loc`), in field declaration order, one entry per failing field. -/

/-- Read a required `str` field value. -/
def readStr : Value → Option String
  | vStr s => some s
  | _ => none

/-- Read an `Optional[str]` field value (`None` admitted). -/
def readOptStr : Value → Option (Option String)
  | vNull => some none
  | vStr s => some (some s)
  | _ => none

/-- Read an `int` field value. -/
def readInt : Value → Option Int
  | vInt n => some n
  | _ => none

/-- Read a `bool` field value. -/
def readBool : Value → Option Bool
  | vBool b => some b
  | _ => none

/-- Read a `float` field value (ints are coerced, as pydantic does). -/
def readNum : Value → Option Rat
  | vInt n => some (n : Rat)
  | vRat q => some q
  | _ => none

/-- Read a `List[str]` field value. -/
def readStrList : Value → Option (List String)
  | vList l => some l
  | _ => none

/-- The error-location list of a field result: empty when the field
validated. -/
def errsOf {α : Type} : Except (List String) α → List String
  | .ok _ => []
  | .error e => e

/-- A required field of reader `rd`: absent or unreadable input is a
one-field error named after the field. -/
def reqField {α : Type} (name : String) (rd : Value → Option α) (m : Doc) :
    Except (List String) α :=
  match lookupField m name with
  | none => .error [name]
  | some v =>
    match rd v with
    | some a => .ok a
    | none => .error [name]

/-- A field with a declared default: the default is used when the field is
absent from the input. -/
def defField {α : Type} (name : String) (rd : Value → Option α) (dflt : α) (m : Doc) :
    Except (List String) α :=
  match lookupField m name with
  | none => .ok dflt
  | some v =>
    match rd v with
    | some a => .ok a
    | none => .error [name]

/-- Attach a numeric-range (or other) constraint on top of a field result. -/
def constrained {α : Type} (name : String) (ok : α → Bool)
    (r : Except (List String) α) : Except (List String) α :=
  match r with
  | .error e => .error e
  | .ok a => if ok a then .ok a else .error [name]

/-- Validated `Progress` record (`src/schemas.py` 42-46). -/
structure Progress where
  user_id : String
  video_id : String
  percent : Rat
  last_position_sec : Option Int
deriving DecidableEq, Repr

/-- `percent: float = Field(0, ge=0, le=100)`. -/
def progressPercentField (m : Doc) : Except (List String) Rat :=
  constrained "percent" (fun q => 0 ≤ q ∧ q ≤ 100) (defField "percent" readNum 0 m)

/-- `last_position_sec: Optional[int] = Field(0, ge=0)`: an explicit
`None` is admitted (the `ge` constraint binds only the `int` branch of the
union), absence defaults to `0`, and a supplied int must be non-negative. -/
def progressLastPosField (m : Doc) : Except (List String) (Option Int) :=
  match lookupField m "last_position_sec" with
  | none => .ok (some 0)
  | some vNull => .ok none
  | some v =>
    match readInt v with
    | none => .error ["last_position_sec"]
    | some n => if 0 ≤ n then .ok (some n) else .error ["last_position_sec"]

/-- Pydantic validation of the `Progress` model on an untyped mapping:
every field is checked independently and all failing fields are reported. -/
def validateProgress (m : Doc) : Except (List String) Progress :=
  let fu := reqField "user_id" readStr m
  let fv := reqField "video_id" readStr m
  let fp := progressPercentField m
  let fl := progressLastPosField m
  match fu, fv, fp, fl with
  | .ok a, .ok b, .ok c, .ok d => .ok ⟨a, b, c, d⟩
  | _, _, _, _ => .error (errsOf fu ++ errsOf fv ++ errsOf fp ++ errsOf fl)

/-- Validated `CreateProgress` request body (`src/main.py` 79-83): the same
fields as `Progress` but with no range constraints. -/
structure CreateProgress where
  user_id : String
  video_id : String
  percent : Rat
  last_position_sec : Option Int
deriving DecidableEq, Repr

/-- `last_position_sec: Optional[int] = 0` on `CreateProgress` (no `ge`). -/
def createProgressLastPosField (m : Doc) : Except (List String) (Option Int) :=
  match lookupField m "last_position_sec" with
  | none => .ok (some 0)
  | some vNull => .ok none
  | some v =>
    match readInt v with
    | none => .error ["last_position_sec"]
    | some n => .ok (some n)

/-- FastAPI body validation of `CreateProgress` on an untyped mapping. -/
def validateCreateProgress (m : Doc) : Except (List String) CreateProgress :=
  let fu := reqField "user_id" readStr m
  let fv := reqField "video_id" readStr m
  let fp := defField "percent" readNum 0 m
  let fl := createProgressLastPosField m
  match fu, fv, fp, fl with
  | .ok a, .ok b, .ok c, .ok d => .ok ⟨a, b, c, d⟩
  | _, _, _, _ => .error (errsOf fu ++ errsOf fv ++ errsOf fp ++ errsOf fl)

/-- `Progress(**p.model_dump())` in `upsert_progress` (`src/main.py` 114):
re-validation of the already-typed request fields against the constrained
`Progress` schema; the range checks can fail here because `CreateProgress`
carries none. -/
def progressFromCreate (p : CreateProgress) : Except (List String) Progress :=
  let fp :=
    if 0 ≤ p.percent ∧ p.percent ≤ 100 then (.ok p.percent : Except (List String) Rat)
    else .error ["percent"]
  let fl :=
    match p.last_position_sec with
    | none => (.ok none : Except (List String) (Option Int))
    | some n => if 0 ≤ n then .ok (some n) else .error ["last_position_sec"]
  match fp, fl with
  | .ok c, .ok d => .ok ⟨p.user_id, p.video_id, c, d⟩
  | _, _ => .error (errsOf fp ++ errsOf fl)

/-- Read a `Literal[...]` field value: a string among the declared options. -/
def readLiteral (opts : List String) : Value → Option String
  | vStr s => if s ∈ opts then some s else none
  | _ => none

/-- An `Optional[int]` field with declared default `None` and a `ge=0`
constraint on supplied ints (`duration_sec` on `Video`). -/
def videoDurationField (m : Doc) : Except (List String) (Option Int) :=
  match lookupField m "duration_sec" with
  | none => .ok none
  | some vNull => .ok none
  | some v =>
    match readInt v with
    | none => .error ["duration_sec"]
    | some n => if 0 ≤ n then .ok (some n) else .error ["duration_sec"]

/-- Validated `Video` record (`src/schemas.py` 32-39). -/
structure Video where
  title : String
  description : Option String
  url : String
  duration_sec : Option Int
  level : String
  topics : List String
  requires_plan : String
deriving DecidableEq, Repr

/-- Pydantic validation of the `Video` model on an untyped mapping. -/
def validateVideo (m : Doc) : Except (List String) Video :=
  let f1 := reqField "title" readStr m
  let f2 := defField "description" readOptStr none m
  let f3 := reqField "url" readStr m
  let f4 := videoDurationField m
  let f5 := defField "level" (readLiteral ["beginner", "intermediate", "advanced"]) "beginner" m
  let f6 := defField "topics" readStrList [] m
  let f7 := defField "requires_plan" (readLiteral ["BASIC", "PREMIUM", "VIP"]) "BASIC" m
  match f1, f2, f3, f4, f5, f6, f7 with
  | .ok a, .ok b, .ok c, .ok d, .ok e, .ok f, .ok g => .ok ⟨a, b, c, d, e, f, g⟩
  | _, _, _, _, _, _, _ =>
    .error (errsOf f1 ++ errsOf f2 ++ errsOf f3 ++ errsOf f4 ++ errsOf f5 ++ errsOf f6 ++ errsOf f7)

/-- Validated `CreateVideo` request body (`src/main.py` 70-77): plain `str`
for `level` and `requires_plan`, no `ge` on `duration_sec`. -/
structure CreateVideo where
  title : String
  description : Option String
  url : String
  duration_sec : Option Int
  level : String
  topics : List String
  requires_plan : String
deriving DecidableEq, Repr

/-- An `Optional[int]` field with declared default `None` and no constraint
(`duration_sec` on `CreateVideo`). -/
def createVideoDurationField (m : Doc) : Except (List String) (Option Int) :=
  match lookupField m "duration_sec" with
  | none => .ok none
  | some vNull => .ok none
  | some v =>
    match readInt v with
    | none => .error ["duration_sec"]
    | some n => .ok (some n)

/-- FastAPI body validation of `CreateVideo` on an untyped mapping. -/
def validateCreateVideo (m : Doc) : Except (List String) CreateVideo :=
  let f1 := reqField "title" readStr m
  let f2 := defField "description" readOptStr none m
  let f3 := reqField "url" readStr m
  let f4 := createVideoDurationField m
  let f5 := defField "level" readStr "beginner" m
  let f6 := defField "topics" readStrList [] m
  let f7 := defField "requires_plan" readStr "BASIC" m
  match f1, f2, f3, f4, f5, f6, f7 with
  | .ok a, .ok b, .ok c, .ok d, .ok e, .ok f, .ok g => .ok ⟨a, b, c, d, e, f, g⟩
  | _, _, _, _, _, _, _ =>
    .error (errsOf f1 ++ errsOf f2 ++ errsOf f3 ++ errsOf f4 ++ errsOf f5 ++ errsOf f6 ++ errsOf f7)

/-- The declared field names of `CreateVideo` / `Video`, in order. -/
def videoFields : List String :=
  ["title", "description", "url", "duration_sec", "level", "topics", "requires_plan"]

/-- `Optional[str]` value in a `model_dump`. -/
def optStrVal : Option String → Value
  | none => vNull
  | some s => vStr s

/-- `Optional[int]` value in a `model_dump`. -/
def optIntVal : Option Int → Value
  | none => vNull
  | some n => vInt n

/-- `model_dump()` of a validated `Video`: exactly the declared fields. -/
def Video.dump (v : Video) : Doc :=
  [("title", vStr v.title), ("description", optStrVal v.description),
   ("url", vStr v.url), ("duration_sec", optIntVal v.duration_sec),
   ("level", vStr v.level), ("topics", vList v.topics),
   ("requires_plan", vStr v.requires_plan)]

/-- `Video(**payload.model_dump())` in `create_video` (`src/main.py` 98):
re-validation of the typed request against the constrained `Video` schema. -/
def videoFromCreate (c : CreateVideo) : Except (List String) Video :=
  let f4 :=
    match c.duration_sec with
    | none => (.ok none : Except (List String) (Option Int))
    | some n => if 0 ≤ n then .ok (some n) else .error ["duration_sec"]
  let f5 :=
    if c.level ∈ ["beginner", "intermediate", "advanced"] then
      (.ok c.level : Except (List String) String)
    else .error ["level"]
  let f7 :=
    if c.requires_plan ∈ ["BASIC", "PREMIUM", "VIP"] then
      (.ok c.requires_plan : Except (List String) String)
    else .error ["requires_plan"]
  match f4, f5, f7 with
  | .ok d, .ok e, .ok g => .ok ⟨c.title, c.description, c.url, d, e, c.topics, g⟩
  | _, _, _ => .error (errsOf f4 ++ errsOf f5 ++ errsOf f7)

/-- Syntactic email check. Abstracts the `EmailStr` validation delegated to
the external email-validator dependency (not code of this repository):
exactly one `@`, neither at the start nor at the end, so the local part and
the domain are non-empty. -/
def emailValid (s : String) : Bool :=
  let cs := s.toList
  cs.count '@' = 1 && cs.head? ≠ some '@' && cs.getLast? ≠ some '@'

/-- Read an `EmailStr` field value. -/
def readEmail : Value → Option String
  | vStr s => if emailValid s then some s else none
  | _ => none

/-- Validated `User` record (`src/schemas.py` 15-21). -/
structure User where
  name : String
  email : String
  avatar_url : Option String
  plan : String
  country : Option String
  is_active : Bool
deriving DecidableEq, Repr

/-- Pydantic validation of the `User` model on an untyped mapping. -/
def validateUser (m : Doc) : Except (List String) User :=
  let f1 := reqField "name" readStr m
  let f2 := reqField "email" readEmail m
  let f3 := defField "avatar_url" readOptStr none m
  let f4 := defField "plan" (readLiteral ["BASIC", "PREMIUM", "VIP"]) "BASIC" m
  let f5 := defField "country" readOptStr none m
  let f6 := defField "is_active" readBool true m
  match f1, f2, f3, f4, f5, f6 with
  | .ok a, .ok b, .ok c, .ok d, .ok e, .ok f => .ok ⟨a, b, c, d, e, f⟩
  | _, _, _, _, _, _ =>
    .error (errsOf f1 ++ errsOf f2 ++ errsOf f3 ++ errsOf f4 ++ errsOf f5 ++ errsOf f6)

/-! ## The progress collection and `upsert_progress` (`src/main.py` 107-124)

The `progress` MongoDB collection is a list of documents in insertion
order; `_id`s are modelled as naturals handed out by a counter, and
`str(ObjectId)` as `toString` of that natural. The two `datetime.now`
calls of the handler are passed in as explicit readings: `t1` is the value
assigned to `updated_at` (line 116), `t2` the one assigned to `created_at`
(line 122), read later. -/

/-- A document of the `progress` collection. -/
structure ProgressDoc where
  pid : Nat
  user_id : String
  video_id : String
  percent : Rat
  last_position_sec : Option Int
  created_at : Nat
  updated_at : Nat
deriving DecidableEq, Repr

/-- The `progress` collection plus the store's id counter. -/
structure ProgressDB where
  progress : List ProgressDoc
  nextId : Nat
deriving DecidableEq, Repr

/-- `coll.find_one({"user_id": ..., "video_id": ...})`: first document
matching the pair, in store order. -/
def find_one (docs : List ProgressDoc) (u v : String) : Option ProgressDoc :=
  docs.find? (fun d => d.user_id = u && d.video_id = v)

/-- The `$set` document of the update branch: every dumped field of the
validated record plus `updated_at`; `pid` and `created_at` are untouched. -/
def applyUpdate (pr : Progress) (t1 : Nat) (d : ProgressDoc) : ProgressDoc :=
  { d with user_id := pr.user_id, video_id := pr.video_id, percent := pr.percent,
           last_position_sec := pr.last_position_sec, updated_at := t1 }

/-- `coll.update_one({"_id": i}, ...)`: rewrite the first document whose id
matches (ids are unique in the store). -/
def updateFirst (docs : List ProgressDoc) (i : Nat) (f : ProgressDoc → ProgressDoc) :
    List ProgressDoc :=
  match docs with
  | [] => []
  | d :: rest => if d.pid = i then f d :: rest else d :: updateFirst rest i f

/-- The two failure modes of the upsert handler: `HTTPException(500,
"Database not configured")` and a pydantic `ValidationError` raised by
`Progress(**p.model_dump())`, carrying the offending field names. -/
inductive UpsertError where
  | storeUnavailable : UpsertError
  | validationError (fields : List String) : UpsertError
deriving DecidableEq, Repr

/-- `upsert_progress` (`src/main.py` 107-124) on an already-validated
`CreateProgress` body: fail when the store is unconfigured; look up the
(user_id, video_id) pair; re-validate as `Progress`; then either `$set` the
existing document (returning its id) or insert a new one with `created_at`
from the second clock reading (returning the fresh id). -/
def upsert_progress (dbOpt : Option ProgressDB) (p : CreateProgress) (t1 t2 : Nat) :
    Except UpsertError (String × ProgressDB) :=
  match dbOpt with
  | none => .error .storeUnavailable
  | some db =>
    let existing := find_one db.progress p.user_id p.video_id
    match progressFromCreate p with
    | .error fs => .error (.validationError fs)
    | .ok pr =>
      match existing with
      | some ex =>
        .ok (toString ex.pid,
             { db with progress := updateFirst db.progress ex.pid (applyUpdate pr t1) })
      | none =>
        let newDoc : ProgressDoc :=
          ⟨db.nextId, pr.user_id, pr.video_id, pr.percent, pr.last_position_sec, t2, t1⟩
        .ok (toString db.nextId,
             { progress := db.progress ++ [newDoc], nextId := db.nextId + 1 })

/-- The store state after one upsert request: an error response (validation
failure or unconfigured store) leaves the state as it was. -/
def stepUpsert (dbOpt : Option ProgressDB) (p : CreateProgress) (t1 t2 : Nat) :
    Option ProgressDB :=
  match upsert_progress dbOpt p t1 t2 with
  | .error _ => dbOpt
  | .ok (_, db2) => some db2

/-- The store state after a sequence of upsert requests, each with its two
clock readings. -/
def runUpserts (dbOpt : Option ProgressDB) (ops : List (CreateProgress × Nat × Nat)) :
    Option ProgressDB :=
  ops.foldl (fun s op => stepUpsert s op.1 op.2.1 op.2.2) dbOpt

/-- The composite key of a progress document. -/
def pairKey (d : ProgressDoc) : String × String :=
  (d.user_id, d.video_id)

/-- At most one live record per (user_id, video_id) pair. -/
def pairUnique (docs : List ProgressDoc) : Prop :=
  (docs.map pairKey).Nodup

/-- Store-assigned ids are unique (MongoDB guarantees `_id` uniqueness). -/
def pidUnique (docs : List ProgressDoc) : Prop :=
  (docs.map ProgressDoc.pid).Nodup

/-- Well-formedness of the store state: ids are unique and below the
counter, and the upsert-maintained pair uniqueness holds. -/
def wf (db : ProgressDB) : Prop :=
  pidUnique db.progress ∧ (∀ d ∈ db.progress, d.pid < db.nextId) ∧ pairUnique db.progress

/-- `wf` lifted to the optional store handle. -/
def wfOpt : Option ProgressDB → Prop
  | none => True
  | some db => wf db

/-- `pairUnique` lifted to the optional store handle. -/
def pairUniqueOpt : Option ProgressDB → Prop
  | none => True
  | some db => pairUnique db.progress

/-! ## Helper lemmas -/

/-- A `CreateProgress` body whose values meet the `Progress` constraints
re-validates to the record with the same fields. -/
theorem progressFromCreate_ok (p : CreateProgress) (h1 : 0 ≤ p.percent)
    (h2 : p.percent ≤ 100) (h3 : ∀ n, p.last_position_sec = some n → 0 ≤ n) :
    progressFromCreate p = .ok ⟨p.user_id, p.video_id, p.percent, p.last_position_sec⟩ := by
  have hp : 0 ≤ p.percent ∧ p.percent ≤ 100 := ⟨h1, h2⟩
  unfold progressFromCreate
  cases hl : p.last_position_sec with
  | none => simp [hp]
  | some n => simp [hp, h3 n hl]

/-- A successful `Progress` re-validation keeps the request's ids. -/
theorem progressFromCreate_fields {p : CreateProgress} {pr : Progress}
    (h : progressFromCreate p = .ok pr) :
    pr.user_id = p.user_id ∧ pr.video_id = p.video_id := by
  unfold progressFromCreate at h
  repeat' split at h
  all_goals simp_all
  all_goals exact ⟨congrArg Progress.user_id h.symm, congrArg Progress.video_id h.symm⟩

/-- A found progress document is in the store and matches the looked-up
pair. -/
theorem find_one_mem {docs : List ProgressDoc} {u v : String} {ex : ProgressDoc}
    (h : find_one docs u v = some ex) :
    ex ∈ docs ∧ ex.user_id = u ∧ ex.video_id = v := by
  unfold find_one at h
  have hm := List.mem_of_find?_eq_some h
  have hp := List.find?_some h
  simp only [Bool.and_eq_true, decide_eq_true_eq] at hp
  exact ⟨hm, hp.1, hp.2⟩

/-- A failed pair lookup means no stored document matches the pair. -/
theorem find_one_none {docs : List ProgressDoc} {u v : String}
    (h : find_one docs u v = none) :
    ∀ d ∈ docs, ¬(d.user_id = u ∧ d.video_id = v) := by
  unfold find_one at h
  intro d hd
  have := List.find?_eq_none.mp h d hd
  simpa using this

/-- Rewriting the first id-matching document does not change any projection
that the rewrite preserves on id-matching documents. -/
theorem updateFirst_map_eq {β : Type} (g : ProgressDoc → β) (docs : List ProgressDoc)
    (i : Nat) (f : ProgressDoc → ProgressDoc)
    (h : ∀ d ∈ docs, d.pid = i → g (f d) = g d) :
    (updateFirst docs i f).map g = docs.map g := by
  induction docs with
  | nil => rfl
  | cons d rest ih =>
    unfold updateFirst
    by_cases hd : d.pid = i
    · simp [hd, h d (List.mem_cons_self d rest) hd]
    · simp only [if_neg hd, List.map_cons]
      rw [ih (fun x hx hxi => h x (List.mem_cons_of_mem d hx) hxi)]

/-- One upsert request preserves store well-formedness. -/
theorem stepUpsert_wf (dbOpt : Option ProgressDB) (p : CreateProgress) (t1 t2 : Nat)
    (h : wfOpt dbOpt) : wfOpt (stepUpsert dbOpt p t1 t2) := by
  cases dbOpt with
  | none => exact trivial
  | some db =>
    obtain ⟨hpid, hbound, hpair⟩ := h
    cases hv : progressFromCreate p with
    | error fs =>
      have hstep : stepUpsert (some db) p t1 t2 = some db := by
        simp [stepUpsert, upsert_progress, hv]
      rw [hstep]
      exact ⟨hpid, hbound, hpair⟩
    | ok pr =>
      obtain ⟨hu, hv2⟩ := progressFromCreate_fields hv
      cases hf : find_one db.progress p.user_id p.video_id with
      | some ex =>
        have hstep : stepUpsert (some db) p t1 t2 =
            some ⟨updateFirst db.progress ex.pid (applyUpdate pr t1), db.nextId⟩ := by
          simp [stepUpsert, upsert_progress, hv, hf]
        rw [hstep]
        obtain ⟨hexmem, hexu, hexv⟩ := find_one_mem hf
        have hpidmap : (updateFirst db.progress ex.pid (applyUpdate pr t1)).map
            ProgressDoc.pid = db.progress.map ProgressDoc.pid :=
          updateFirst_map_eq _ _ _ _ (fun d _ _ => rfl)
        have hpairmap : (updateFirst db.progress ex.pid (applyUpdate pr t1)).map
            pairKey = db.progress.map pairKey := by
          apply updateFirst_map_eq
          intro d hd hdi
          have hde : d = ex := List.inj_on_of_nodup_map hpid hd hexmem hdi
          subst hde
          simp [pairKey, applyUpdate, hu, hv2, hexu, hexv]
        refine ⟨?_, ?_, ?_⟩
        · unfold pidUnique
          rw [hpidmap]
          exact hpid
        · intro d hd
          have hmem : d.pid ∈ db.progress.map ProgressDoc.pid := by
            rw [← hpidmap]
            exact List.mem_map_of_mem _ hd
          obtain ⟨d0, hd0, he⟩ := List.mem_map.mp hmem
          rw [← he]
          exact hbound d0 hd0
        · unfold pairUnique
          rw [hpairmap]
          exact hpair
      | none =>
        have hstep : stepUpsert (some db) p t1 t2 =
            some ⟨db.progress ++
              [⟨db.nextId, pr.user_id, pr.video_id, pr.percent, pr.last_position_sec, t2, t1⟩],
              db.nextId + 1⟩ := by
          simp [stepUpsert, upsert_progress, hv, hf]
        rw [hstep]
        have hnew := find_one_none hf
        refine ⟨?_, ?_, ?_⟩
        · unfold pidUnique
          rw [List.map_append, List.nodup_append]
          refine ⟨hpid, List.nodup_singleton _, ?_⟩
          intro a ha hb
          simp only [List.map_cons, List.map_nil, List.mem_singleton] at hb
          obtain ⟨d0, hd0, he⟩ := List.mem_map.mp ha
          have := hbound d0 hd0
          omega
        · intro d hd
          rcases List.mem_append.mp hd with h1 | h1
          · exact Nat.lt_succ_of_lt (hbound d h1)
          · rw [List.mem_singleton.mp h1]
            exact Nat.lt_succ_self _
        · unfold pairUnique
          rw [List.map_append, List.nodup_append]
          refine ⟨hpair, List.nodup_singleton _, ?_⟩
          intro a ha hb
          simp only [List.map_cons, List.map_nil, List.mem_singleton] at hb
          obtain ⟨d0, hd0, he⟩ := List.mem_map.mp ha
          apply hnew d0 hd0
          have : pairKey d0 = (pr.user_id, pr.video_id) := by
            rw [he, hb]
            rfl
          refine ⟨?_, ?_⟩
          · have := congrArg Prod.fst this
            simpa [pairKey, hu] using this
          · have := congrArg Prod.snd this
            simpa [pairKey, hv2] using this

/-! ## Claims C1, C2, C3, C5 -/

/-- C3: under sequential execution, any sequence of Progress upserts run
from a well-formed store (unique store ids below the counter, at most one
record per pair) leaves the store well-formed; in particular the progress
collection keeps at most one record per (user_id, video_id) pair, so a
repeated upsert for a pair never inserts a second record for it. -/
theorem upserts_preserve_pair_uniqueness (dbOpt : Option ProgressDB)
    (ops : List (CreateProgress × Nat × Nat)) (h : wfOpt dbOpt) :
    wfOpt (runUpserts dbOpt ops) ∧ pairUniqueOpt (runUpserts dbOpt ops) := by
  have main : wfOpt (runUpserts dbOpt ops) := by
    induction ops generalizing dbOpt with
    | nil => exact h
    | cons op rest ih => exact ih _ (stepUpsert_wf dbOpt op.1 op.2.1 op.2.2 h)
  refine ⟨main, ?_⟩
  cases hr : runUpserts dbOpt ops with
  | none => exact trivial
  | some db =>
    rw [hr] at main
    exact main.2.2

/-- C3 witness: two upserts of the same pair ("u", "v") against an
initially empty store keep the store well-formed and pair-unique. -/
theorem upserts_preserve_pair_uniqueness_witness :
    wfOpt (runUpserts (some ⟨[], 0⟩)
      [(⟨"u", "v", 10, some 0⟩, 1, 1), (⟨"u", "v", 20, some 5⟩, 2, 2)]) ∧
    pairUniqueOpt (runUpserts (some ⟨[], 0⟩)
      [(⟨"u", "v", 10, some 0⟩, 1, 1), (⟨"u", "v", 20, some 5⟩, 2, 2)]) :=
  upserts_preserve_pair_uniqueness (some ⟨[], 0⟩)
    [(⟨"u", "v", 10, some 0⟩, 1, 1), (⟨"u", "v", 20, some 5⟩, 2, 2)]
    ⟨List.nodup_nil, fun d hd => absurd hd (List.not_mem_nil d), List.nodup_nil⟩

/-- C1 (as stated, refuted): on the very first upsert of a pair against an
empty store, with clock readings 0 (for `updated_at`, line 116) and then 1
(for `created_at`, line 122), the inserted record has `created_at = 1` but
`updated_at = 0`: the two fields are set by two distinct `datetime.now`
calls, so they need not be equal. -/
theorem upsert_first_insert_created_ne_updated :
    upsert_progress (some ⟨[], 0⟩) ⟨"u", "v", 50, some 0⟩ 0 1 =
      .ok ("0", ⟨[⟨0, "u", "v", 50, some 0, 1, 0⟩], 1⟩) ∧
    ¬((⟨0, "u", "v", 50, some 0, 1, 0⟩ : ProgressDoc).created_at =
      (⟨0, "u", "v", 50, some 0, 1, 0⟩ : ProgressDoc).updated_at) :=
  ⟨rfl, by decide⟩

/-- C1 (amended): a Progress upsert whose pair has no existing record, with
in-range values, inserts a new record whose `updated_at` is the first clock
reading of the call and whose `created_at` is the second, later reading —
so `created_at = updated_at` exactly when the clock does not advance
between the two readings — and returns the newly assigned identifier. -/
theorem upsert_insert_fresh (db : ProgressDB) (p : CreateProgress) (t1 t2 : Nat)
    (h1 : 0 ≤ p.percent) (h2 : p.percent ≤ 100)
    (h3 : ∀ n, p.last_position_sec = some n → 0 ≤ n)
    (hfind : find_one db.progress p.user_id p.video_id = none) :
    upsert_progress (some db) p t1 t2 =
      .ok (toString db.nextId,
        ⟨db.progress ++
           [⟨db.nextId, p.user_id, p.video_id, p.percent, p.last_position_sec, t2, t1⟩],
         db.nextId + 1⟩) ∧
    (t1 = t2 →
      (⟨db.nextId, p.user_id, p.video_id, p.percent, p.last_position_sec, t2, t1⟩ :
        ProgressDoc).created_at =
      (⟨db.nextId, p.user_id, p.video_id, p.percent, p.last_position_sec, t2, t1⟩ :
        ProgressDoc).updated_at) := by
  constructor
  · simp only [upsert_progress, progressFromCreate_ok p h1 h2 h3, hfind]
  · intro h
    exact h.symm

/-- C1 witness: first upsert of ("alice", "video1") against an empty store
with both clock readings 9 inserts the record with both timestamps 9 and
returns the fresh id "5". -/
theorem upsert_insert_fresh_witness :
    upsert_progress (some ⟨[], 5⟩) ⟨"alice", "video1", 40, some 7⟩ 9 9 =
      .ok ("5", ⟨[⟨5, "alice", "video1", 40, some 7, 9, 9⟩], 6⟩) :=
  (upsert_insert_fresh ⟨[], 5⟩ ⟨"alice", "video1", 40, some 7⟩ 9 9 (by decide) (by decide)
    (fun n hn => by injection hn with h; subst h; decide) rfl).1

/-- C2: a Progress upsert whose pair matches an existing record rewrites
that record in place — `user_id`, `video_id`, `percent`,
`last_position_sec` are overwritten with the validated values and
`updated_at` with the current time, while `pid` (`_id`) and `created_at`
are untouched — and the existing identifier is returned. -/
theorem upsert_update_existing (db : ProgressDB) (p : CreateProgress) (t1 t2 : Nat)
    (ex : ProgressDoc) (h1 : 0 ≤ p.percent) (h2 : p.percent ≤ 100)
    (h3 : ∀ n, p.last_position_sec = some n → 0 ≤ n)
    (hfind : find_one db.progress p.user_id p.video_id = some ex) :
    upsert_progress (some db) p t1 t2 =
      .ok (toString ex.pid,
        ⟨updateFirst db.progress ex.pid
            (applyUpdate ⟨p.user_id, p.video_id, p.percent, p.last_position_sec⟩ t1),
         db.nextId⟩) ∧
    applyUpdate ⟨p.user_id, p.video_id, p.percent, p.last_position_sec⟩ t1 ex =
      ⟨ex.pid, p.user_id, p.video_id, p.percent, p.last_position_sec, ex.created_at, t1⟩ := by
  constructor
  · simp only [upsert_progress, progressFromCreate_ok p h1 h2 h3, hfind]
  · rfl

/-- C2 witness: upserting ("bob", "vid") with percent 80 over a store
holding the pair's record with id 3 and created_at 100 rewrites that record
(fields replaced, updated_at 200, created_at still 100) and returns "3". -/
theorem upsert_update_existing_witness :
    upsert_progress (some ⟨[⟨3, "bob", "vid", 10, some 0, 100, 100⟩], 4⟩)
        ⟨"bob", "vid", 80, some 30⟩ 200 201 =
      .ok ("3", ⟨[⟨3, "bob", "vid", 80, some 30, 100, 200⟩], 4⟩) := by
  have h := (upsert_update_existing ⟨[⟨3, "bob", "vid", 10, some 0, 100, 100⟩], 4⟩
    ⟨"bob", "vid", 80, some 30⟩ 200 201 ⟨3, "bob", "vid", 10, some 0, 100, 100⟩
    (by decide) (by decide)
    (fun n hn => by injection hn with h2; subst h2; decide) (by decide)).1
  simpa [updateFirst, applyUpdate] using h

/-- An out-of-range supplied percent value makes the percent field check
fail with the field's own name. -/
theorem progressPercentField_error {m : Doc} {v : Value} {q : Rat}
    (hl : lookupField m "percent" = some v) (hr : readNum v = some q)
    (hq : q < 0 ∨ 100 < q) :
    progressPercentField m = .error ["percent"] := by
  have hnot : ¬(0 ≤ q ∧ q ≤ 100) := by
    rcases hq with h | h
    · exact fun hc => absurd hc.1 (not_le.mpr h)
    · exact fun hc => absurd hc.2 (not_le.mpr h)
  unfold progressPercentField defField constrained
  simp only [hl, hr]
  simp [hnot]

/-- A failing percent check makes the whole validation fail with an error
list containing "percent". -/
theorem validateProgress_error_of_percent {m : Doc}
    (hp : progressPercentField m = .error ["percent"]) :
    ∃ fs, validateProgress m = .error fs ∧ "percent" ∈ fs := by
  unfold validateProgress
  rcases hu : reqField "user_id" readStr m with e1 | a <;>
  rcases hv : reqField "video_id" readStr m with e2 | b <;>
  rcases hl : progressLastPosField m with e4 | d <;>
  simp only [hp, hu, hv, hl, errsOf] <;>
  exact ⟨_, rfl, by simp⟩

/-- C4: percent outside [0,100] on a Progress write fails validation with a
field-level error naming "percent"; concretely, percent 150 is rejected
with exactly that field reported, and percent 100 passes validation. -/
theorem progress_percent_range :
    (∀ (m : Doc) (v : Value) (q : Rat), lookupField m "percent" = some v →
      readNum v = some q → (q < 0 ∨ 100 < q) →
      ∃ fs, validateProgress m = .error fs ∧ "percent" ∈ fs) ∧
    validateProgress [("user_id", vStr "u"), ("video_id", vStr "v"), ("percent", vInt 150)] =
      .error ["percent"] ∧
    validateProgress [("user_id", vStr "u"), ("video_id", vStr "v"), ("percent", vInt 100)] =
      .ok ⟨"u", "v", 100, some 0⟩ := by
  refine ⟨?_, rfl, rfl⟩
  intro m v q hl hr hq
  exact validateProgress_error_of_percent (progressPercentField_error hl hr hq)

/-- C4 witness: percent 150.5 (as 301/2) on an otherwise valid input fails
validation with "percent" among the reported fields. -/
theorem progress_percent_range_witness :
    ∃ fs, validateProgress [("user_id", vStr "a"), ("video_id", vStr "b"),
      ("percent", vRat (301/2))] = .error fs ∧ "percent" ∈ fs :=
  progress_percent_range.1 _ (vRat (301/2)) (301/2) rfl rfl (Or.inr (by norm_num))

/-- A required field check either accepts a value or fails with exactly the
field's own name. -/
theorem reqField_shape {α : Type} (name : String) (rd : Value → Option α) (m : Doc) :
    (∃ a, reqField name rd m = .ok a) ∨ reqField name rd m = .error [name] := by
  cases hv : lookupField m name with
  | none => exact Or.inr (by unfold reqField; simp [hv])
  | some v =>
    cases hr : rd v with
    | none => exact Or.inr (by unfold reqField; simp [hv, hr])
    | some a => exact Or.inl ⟨a, by unfold reqField; simp [hv, hr]⟩

/-- The percent check either accepts a value or fails with exactly
"percent". -/
theorem percentField_shape (m : Doc) :
    (∃ a, progressPercentField m = .ok a) ∨ progressPercentField m = .error ["percent"] := by
  have h0 : (0 : Rat) ≤ 0 ∧ (0 : Rat) ≤ 100 := by norm_num
  cases hv : lookupField m "percent" with
  | none =>
    exact Or.inl ⟨0, by unfold progressPercentField constrained defField; simp [hv, h0]⟩
  | some v =>
    cases hr : readNum v with
    | none =>
      exact Or.inr (by unfold progressPercentField constrained defField; simp [hv, hr])
    | some a =>
      by_cases h : 0 ≤ a ∧ a ≤ 100
      · exact Or.inl ⟨a, by unfold progressPercentField constrained defField; simp [hv, hr, h]⟩
      · exact Or.inr (by unfold progressPercentField constrained defField; simp [hv, hr, h])

/-- The last-position check either accepts a value or fails with exactly
"last_position_sec". -/
theorem lastPosField_shape (m : Doc) :
    (∃ a, progressLastPosField m = .ok a) ∨
      progressLastPosField m = .error ["last_position_sec"] := by
  unfold progressLastPosField
  cases lookupField m "last_position_sec" with
  | none => exact Or.inl ⟨some 0, rfl⟩
  | some v =>
    cases v with
    | vNull => exact Or.inl ⟨none, rfl⟩
    | vInt n =>
      by_cases h : 0 ≤ n
      · exact Or.inl ⟨some n, by simp [readInt, h]⟩
      · exact Or.inr (by simp [readInt, h])
    | vStr s => exact Or.inr rfl
    | vRat q => exact Or.inr rfl
    | vBool b => exact Or.inr rfl
    | vList l => exact Or.inr rfl
    | vId n => exact Or.inr rfl
    | vTime t => exact Or.inr rfl

/-- C6: whenever Progress validation of an untyped mapping fails, the error
list names a field if and only if that field's own independent check fails
— every violating field is reported, not only the first; concretely, an
input with percent 150 and last_position_sec -1 reports both fields. -/
theorem validation_reports_every_field :
    (∀ (m : Doc) (fs : List String), validateProgress m = .error fs →
      (("user_id" ∈ fs ↔ reqField "user_id" readStr m = .error ["user_id"]) ∧
       ("video_id" ∈ fs ↔ reqField "video_id" readStr m = .error ["video_id"]) ∧
       ("percent" ∈ fs ↔ progressPercentField m = .error ["percent"]) ∧
       ("last_position_sec" ∈ fs ↔
         progressLastPosField m = .error ["last_position_sec"]))) ∧
    validateProgress [("user_id", vStr "u"), ("video_id", vStr "v"),
        ("percent", vInt 150), ("last_position_sec", vInt (-1))] =
      .error ["percent", "last_position_sec"] := by
  refine ⟨?_, rfl⟩
  intro m fs h
  rcases reqField_shape "user_id" readStr m with ⟨a, h1⟩ | h1 <;>
  rcases reqField_shape "video_id" readStr m with ⟨b, h2⟩ | h2 <;>
  rcases percentField_shape m with ⟨c, h3⟩ | h3 <;>
  rcases lastPosField_shape m with ⟨d, h4⟩ | h4 <;>
  simp only [validateProgress, h1, h2, h3, h4, errsOf] at h <;>
  simp_all <;>
  subst h <;>
  decide

/-- C6 witness: on an input whose user_id is a number and whose percent is
200, the reported field list is ["user_id", "percent"], and "percent" is in
it precisely because the percent check fails. -/
theorem validation_reports_every_field_witness :
    "percent" ∈ ["user_id", "percent"] ↔
      progressPercentField [("user_id", vInt 5), ("video_id", vStr "v"),
        ("percent", vInt 200)] = .error ["percent"] :=
  (validation_reports_every_field.1
    [("user_id", vInt 5), ("video_id", vStr "v"), ("percent", vInt 200)]
    ["user_id", "percent"] rfl).2.2.1

/-- A field with a default validates to the default when absent. -/
theorem defField_absent {α : Type} (name : String) (rd : Value → Option α) (dflt : α)
    {m : Doc} (h : lookupField m name = none) :
    defField name rd dflt m = .ok dflt := by
  unfold defField
  rw [h]

/-- The percent check yields the declared default 0 when the field is
absent. -/
theorem percentField_absent {m : Doc} (h : lookupField m "percent" = none) :
    progressPercentField m = .ok 0 := by
  have h0 : (0 : Rat) ≤ 0 ∧ (0 : Rat) ≤ 100 := by norm_num
  unfold progressPercentField constrained defField
  simp [h, h0]

/-- The last-position check yields the declared default `some 0` when the
field is absent. -/
theorem lastPosField_absent {m : Doc} (h : lookupField m "last_position_sec" = none) :
    progressLastPosField m = .ok (some 0) := by
  unfold progressLastPosField
  rw [h]

/-- The last-position check yields `none` on an explicit null. -/
theorem lastPosField_null {m : Doc} (h : lookupField m "last_position_sec" = some vNull) :
    progressLastPosField m = .ok none := by
  unfold progressLastPosField
  rw [h]

/-- A successful `Video` validation pins every field of the result to its
field check. -/
theorem validateVideo_ok_inv {m : Doc} {r : Video} (h : validateVideo m = .ok r) :
    reqField "title" readStr m = .ok r.title ∧
    defField "description" readOptStr none m = .ok r.description ∧
    reqField "url" readStr m = .ok r.url ∧
    videoDurationField m = .ok r.duration_sec ∧
    defField "level" (readLiteral ["beginner", "intermediate", "advanced"]) "beginner" m =
      .ok r.level ∧
    defField "topics" readStrList [] m = .ok r.topics ∧
    defField "requires_plan" (readLiteral ["BASIC", "PREMIUM", "VIP"]) "BASIC" m =
      .ok r.requires_plan := by
  simp only [validateVideo] at h
  split at h
  · injection h with h2
    subst h2
    refine ⟨?_, ?_, ?_, ?_, ?_, ?_, ?_⟩ <;> assumption
  · exact Except.noConfusion h

/-- A successful `Progress` validation pins every field of the result to
its field check. -/
theorem validateProgress_ok_inv {m : Doc} {r : Progress} (h : validateProgress m = .ok r) :
    reqField "user_id" readStr m = .ok r.user_id ∧
    reqField "video_id" readStr m = .ok r.video_id ∧
    progressPercentField m = .ok r.percent ∧
    progressLastPosField m = .ok r.last_position_sec := by
  simp only [validateProgress] at h
  split at h
  · injection h with h2
    subst h2
    refine ⟨?_, ?_, ?_, ?_⟩ <;> assumption
  · exact Except.noConfusion h

/-- A successful `User` validation pins every field of the result to its
field check. -/
theorem validateUser_ok_inv {m : Doc} {r : User} (h : validateUser m = .ok r) :
    reqField "name" readStr m = .ok r.name ∧
    reqField "email" readEmail m = .ok r.email ∧
    defField "avatar_url" readOptStr none m = .ok r.avatar_url ∧
    defField "plan" (readLiteral ["BASIC", "PREMIUM", "VIP"]) "BASIC" m = .ok r.plan ∧
    defField "country" readOptStr none m = .ok r.country ∧
    defField "is_active" readBool true m = .ok r.is_active := by
  simp only [validateUser] at h
  split at h
  · injection h with h2
    subst h2
    refine ⟨?_, ?_, ?_, ?_, ?_, ?_⟩ <;> assumption
  · exact Except.noConfusion h

/-- C7: declared defaults are populated when the field is absent from the
input: a validated Video gains level "beginner", topics [] and
requires_plan "BASIC"; a validated Progress gains percent 0 and
last_position_sec 0; a validated User gains plan "BASIC" and is_active
true. -/
theorem validation_defaults :
    (∀ (m : Doc) (r : Video), validateVideo m = .ok r →
      (lookupField m "level" = none → r.level = "beginner") ∧
      (lookupField m "topics" = none → r.topics = []) ∧
      (lookupField m "requires_plan" = none → r.requires_plan = "BASIC")) ∧
    (∀ (m : Doc) (r : Progress), validateProgress m = .ok r →
      (lookupField m "percent" = none → r.percent = 0) ∧
      (lookupField m "last_position_sec" = none → r.last_position_sec = some 0)) ∧
    (∀ (m : Doc) (r : User), validateUser m = .ok r →
      (lookupField m "plan" = none → r.plan = "BASIC") ∧
      (lookupField m "is_active" = none → r.is_active = true)) := by
  refine ⟨?_, ?_, ?_⟩
  · intro m r h
    obtain ⟨-, -, -, -, h5, h6, h7⟩ := validateVideo_ok_inv h
    exact ⟨fun hl => Except.ok.inj (h5.symm.trans (defField_absent _ _ _ hl)),
           fun hl => Except.ok.inj (h6.symm.trans (defField_absent _ _ _ hl)),
           fun hl => Except.ok.inj (h7.symm.trans (defField_absent _ _ _ hl))⟩
  · intro m r h
    obtain ⟨-, -, h3, h4⟩ := validateProgress_ok_inv h
    exact ⟨fun hl => Except.ok.inj (h3.symm.trans (percentField_absent hl)),
           fun hl => Except.ok.inj (h4.symm.trans (lastPosField_absent hl))⟩
  · intro m r h
    obtain ⟨-, -, -, h4, -, h6⟩ := validateUser_ok_inv h
    exact ⟨fun hl => Except.ok.inj (h4.symm.trans (defField_absent _ _ _ hl)),
           fun hl => Except.ok.inj (h6.symm.trans (defField_absent _ _ _ hl))⟩

/-- C7 witness: concrete minimal inputs get the defaults — a Video from
just title and url has level "beginner"; a Progress from just the ids has
percent 0; a User from just name and email has plan "BASIC". -/
theorem validation_defaults_witness :
    (⟨"t", none, "url", none, "beginner", [], "BASIC"⟩ : Video).level = "beginner" ∧
    (⟨"x", "y", 0, some 0⟩ : Progress).percent = 0 ∧
    (⟨"n", "a@b", none, "BASIC", none, true⟩ : User).plan = "BASIC" :=
  ⟨(validation_defaults.1 [("title", vStr "t"), ("url", vStr "url")]
      ⟨"t", none, "url", none, "beginner", [], "BASIC"⟩ rfl).1 rfl,
   (validation_defaults.2.1 [("user_id", vStr "x"), ("video_id", vStr "y")]
      ⟨"x", "y", 0, some 0⟩ rfl).1 rfl,
   (validation_defaults.2.2 [("name", vStr "n"), ("email", vStr "a@b")]
      ⟨"n", "a@b", none, "BASIC", none, true⟩ rfl).1 rfl⟩

/-- C10: an explicit null last_position_sec passes Progress validation and
the resulting record holds `none` there — the declared "≥ 0" constraint
binds only supplied integers, so a stored record's last_position_sec is not
guaranteed to be a non-negative integer; concretely, a null write validates
and a full upsert of it persists the record with no position value. -/
theorem lastpos_null_passes :
    (∀ (m : Doc) (r : Progress), validateProgress m = .ok r →
      lookupField m "last_position_sec" = some vNull → r.last_position_sec = none) ∧
    (∀ p : CreateProgress, p.last_position_sec = none →
      0 ≤ p.percent → p.percent ≤ 100 →
      progressFromCreate p = .ok ⟨p.user_id, p.video_id, p.percent, none⟩) ∧
    validateProgress [("user_id", vStr "u"), ("video_id", vStr "v"),
      ("percent", vInt 10), ("last_position_sec", vNull)] = .ok ⟨"u", "v", 10, none⟩ ∧
    upsert_progress (some ⟨[], 0⟩) ⟨"u", "v", 10, none⟩ 3 4 =
      .ok ("0", ⟨[⟨0, "u", "v", 10, none, 4, 3⟩], 1⟩) := by
  refine ⟨?_, ?_, rfl, rfl⟩
  · intro m r h hl
    obtain ⟨-, -, -, h4⟩ := validateProgress_ok_inv h
    exact Except.ok.inj (h4.symm.trans (lastPosField_null hl))
  · intro p hnone h1 h2
    have hfc := progressFromCreate_ok p h1 h2
      (fun n hn => absurd (hnone.symm.trans hn) (by simp))
    rw [hnone] at hfc
    exact hfc

/-- C10 witness: the body with percent 55 and a null position re-validates
to the record with no position value. -/
theorem lastpos_null_passes_witness :
    progressFromCreate ⟨"w", "x", 55, none⟩ = .ok ⟨"w", "x", 55, none⟩ :=
  lastpos_null_passes.2.1 ⟨"w", "x", 55, none⟩ rfl (by norm_num) (by norm_num)

/-- Two inputs agreeing on a field give the same required-field result. -/
theorem reqField_congr {α : Type} (name : String) (rd : Value → Option α) {m m2 : Doc}
    (h : lookupField m name = lookupField m2 name) :
    reqField name rd m = reqField name rd m2 := by
  unfold reqField
  rw [h]

/-- Two inputs agreeing on a field give the same defaulted-field result. -/
theorem defField_congr {α : Type} (name : String) (rd : Value → Option α) (dflt : α)
    {m m2 : Doc} (h : lookupField m name = lookupField m2 name) :
    defField name rd dflt m = defField name rd dflt m2 := by
  unfold defField
  rw [h]

/-- Two inputs agreeing on duration_sec give the same duration result. -/
theorem createVideoDurationField_congr {m m2 : Doc}
    (h : lookupField m "duration_sec" = lookupField m2 "duration_sec") :
    createVideoDurationField m = createVideoDurationField m2 := by
  unfold createVideoDurationField
  rw [h]

/-- Two input mappings agree on a set of field names. -/
def agreeOn (fields : List String) (m m2 : Doc) : Prop :=
  ∀ f ∈ fields, lookupField m f = lookupField m2 f

/-- `CreateVideo` validation reads only the declared fields. -/
theorem validateCreateVideo_congr {m m2 : Doc} (h : agreeOn videoFields m m2) :
    validateCreateVideo m = validateCreateVideo m2 := by
  unfold validateCreateVideo
  rw [reqField_congr "title" readStr (h "title" (by simp [videoFields])),
      defField_congr "description" readOptStr none (h "description" (by simp [videoFields])),
      reqField_congr "url" readStr (h "url" (by simp [videoFields])),
      createVideoDurationField_congr (h "duration_sec" (by simp [videoFields])),
      defField_congr "level" readStr "beginner" (h "level" (by simp [videoFields])),
      defField_congr "topics" readStrList [] (h "topics" (by simp [videoFields])),
      defField_congr "requires_plan" readStr "BASIC" (h "requires_plan" (by simp [videoFields]))]

/-- Appending an entry under a different key does not change a lookup. -/
theorem lookup_append_unknown {m : Doc} {k : String} (v : Value) {f : String} (h : k ≠ f) :
    lookupField (m ++ [(k, v)]) f = lookupField m f := by
  induction m with
  | nil => simp [lookupField, h]
  | cons p rest ih =>
    cases p with
    | mk a b =>
      by_cases ha : a = f
      · simp [lookupField, ha]
      · simp [lookupField, ha, ih]

/-- A dumped `Video` record holds no undeclared key. -/
theorem dump_no_extra (vid : Video) (k : String) (hk : k ∉ videoFields) :
    lookupField vid.dump k = none := by
  simp only [videoFields, List.mem_cons, List.mem_singleton, not_or] at hk
  obtain ⟨n1, n2, n3, n4, n5, n6, n7, -⟩ := hk
  simp [Video.dump, lookupField, Ne.symm n1, Ne.symm n2, Ne.symm n3, Ne.symm n4,
    Ne.symm n5, Ne.symm n6, Ne.symm n7]

/-- C8: write-request inputs that differ only in undeclared fields validate
identically — in particular appending any binding for an undeclared key
such as "foo" leaves the validation result unchanged — and a validated
Video record dumps to exactly the declared fields, so no undeclared field
is observable in the created record. -/
theorem unknown_fields_not_observable :
    (∀ m m2 : Doc, agreeOn videoFields m m2 →
      validateCreateVideo m = validateCreateVideo m2) ∧
    (∀ (m : Doc) (k : String) (v : Value), k ∉ videoFields →
      validateCreateVideo (m ++ [(k, v)]) = validateCreateVideo m) ∧
    (∀ (vid : Video) (k : String), k ∉ videoFields → lookupField vid.dump k = none) := by
  refine ⟨fun m m2 h => validateCreateVideo_congr h, ?_, dump_no_extra⟩
  intro m k v hk
  apply validateCreateVideo_congr
  intro f hf
  exact lookup_append_unknown v (fun he => hk (he ▸ hf))

/-- C8 witness: a Video payload with an extra foo: "bar" validates exactly
as the payload without it. -/
theorem unknown_fields_not_observable_witness :
    validateCreateVideo [("title", vStr "t"), ("url", vStr "u"), ("foo", vStr "bar")] =
      validateCreateVideo [("title", vStr "t"), ("url", vStr "u")] :=
  unknown_fields_not_observable.2.1 [("title", vStr "t"), ("url", vStr "u")]
    "foo" (vStr "bar") (by decide)

/-- Removing a key removes it from lookups. -/
theorem lookup_removeKey_self (d : Doc) (k : String) :
    lookupField (removeKey d k) k = none := by
  induction d with
  | nil => rfl
  | cons p rest ih =>
    cases p with
    | mk a b =>
      unfold removeKey at ih ⊢
      by_cases ha : a = k
      · simpa [List.filter_cons, ha] using ih
      · simpa [List.filter_cons, ha, lookupField] using ih

/-- Appending an entry for a key absent from the dict makes lookups of
that key find it. -/
theorem lookup_append_hit (d : Doc) (k : String) (v : Value)
    (h : ∀ p ∈ d, p.1 ≠ k) :
    lookupField (d ++ [(k, v)]) k = some v := by
  induction d with
  | nil => simp [lookupField]
  | cons p rest ih =>
    cases p with
    | mk a b =>
      have ha : a ≠ k := h (a, b) (List.mem_cons_self _ _)
      simp [lookupField, ha, ih (fun q hq => h q (List.mem_cons_of_mem _ hq))]

/-- Rewriting the entry for a present key makes lookups of it yield the
new value. -/
theorem lookup_map_setEntry_self (d : Doc) (k : String) (v : Value)
    (hany : d.any (fun p => p.1 = k) = true) :
    lookupField (d.map (fun p => if p.1 = k then (k, v) else p)) k = some v := by
  induction d with
  | nil => simp at hany
  | cons p rest ih =>
    obtain ⟨a, b⟩ := p
    by_cases ha : a = k
    · subst ha
      have hhead : (if ((a, b) : String × Value).1 = a then (a, v) else (a, b)) =
          (a, v) := by simp
      rw [List.map_cons, hhead]
      simp [lookupField]
    · have hany2 : rest.any (fun q => q.1 = k) = true := by
        simpa [List.any_cons, ha] using hany
      have hhead : (if ((a, b) : String × Value).1 = k then (k, v) else (a, b)) =
          (a, b) := by simp [ha]
      rw [List.map_cons, hhead]
      simp [lookupField, ha, ih hany2]

/-- Rewriting the entry for one key does not change other keys' lookups. -/
theorem lookup_map_setEntry_ne (d : Doc) (k : String) (v : Value) (f : String)
    (h : f ≠ k) :
    lookupField (d.map (fun p => if p.1 = k then (k, v) else p)) f = lookupField d f := by
  induction d with
  | nil => rfl
  | cons p rest ih =>
    obtain ⟨a, b⟩ := p
    by_cases ha : a = k
    · subst ha
      have hhead : (if ((a, b) : String × Value).1 = a then (a, v) else (a, b)) =
          (a, v) := by simp
      rw [List.map_cons, hhead]
      have haf : ¬(a = f) := fun he => h he.symm
      simp [lookupField, haf, ih]
    · have hhead : (if ((a, b) : String × Value).1 = k then (k, v) else (a, b)) =
          (a, b) := by simp [ha]
      rw [List.map_cons, hhead]
      by_cases haf : a = f
      · simp [lookupField, haf]
      · simp [lookupField, haf, ih]

/-- Dict assignment makes the assigned key hold the assigned value. -/
theorem lookup_setKey_self (d : Doc) (k : String) (v : Value) :
    lookupField (setKey d k v) k = some v := by
  unfold setKey
  by_cases hany : d.any (fun p => p.1 = k) = true
  · rw [if_pos hany]
    exact lookup_map_setEntry_self d k v hany
  · rw [if_neg hany]
    apply lookup_append_hit
    intro p hp hpk
    exact hany (List.any_eq_true.mpr ⟨p, hp, by simp [hpk]⟩)

/-- Dict assignment leaves every other key's lookup unchanged. -/
theorem lookup_setKey_ne (d : Doc) (k : String) (v : Value) (f : String) (h : f ≠ k) :
    lookupField (setKey d k v) f = lookupField d f := by
  unfold setKey
  by_cases hany : d.any (fun p => p.1 = k) = true
  · rw [if_pos hany]
    exact lookup_map_setEntry_ne d k v f h
  · rw [if_neg hany]
    exact lookup_append_unknown v (Ne.symm h)

/-- C9: every item of a list response (videos, a user's progress, forum
posts) is the serialization of some store document; serializing a document
holding an ObjectId under "_id" yields a document whose "id" field is the
identifier's string form and which has no "_id" field; and a document with
no "_id" field is returned unchanged. -/
theorem list_id_serialization :
    (∀ (store : Store) (limit : Nat) (uid : String) (d : Doc),
      (d ∈ list_videos store limit ∨ d ∈ get_user_progress store uid limit ∨
        d ∈ list_posts store limit) →
      ∃ doc : Doc, d = serialize_doc doc) ∧
    (∀ (doc : Doc) (n : Nat), lookupField doc "_id" = some (vId n) →
      lookupField (serialize_doc doc) "id" = some (vStr (toString n)) ∧
      lookupField (serialize_doc doc) "_id" = none) ∧
    (∀ doc : Doc, lookupField doc "_id" = none → serialize_doc doc = doc) := by
  refine ⟨?_, ?_, ?_⟩
  · intro store limit uid d hd
    rcases hd with h | h | h <;>
    · obtain ⟨doc, -, hdoc⟩ := List.mem_map.mp h
      exact ⟨doc, hdoc.symm⟩
  · intro doc n h
    have hne : doc ≠ [] := by
      intro he
      subst he
      simp [lookupField] at h
    unfold serialize_doc
    rw [if_neg hne, h]
    constructor
    · exact lookup_setKey_self _ _ _
    · rw [lookup_setKey_ne _ _ _ _ (by decide)]
      exact lookup_removeKey_self _ _
  · intro doc h
    unfold serialize_doc
    rw [h]
    split <;> rfl

/-- C9 witness: serializing the stored document with ObjectId 42 yields
"id" = "42" and no "_id". -/
theorem list_id_serialization_witness :
    lookupField (serialize_doc [("_id", vId 42), ("title", vStr "t")]) "id" =
      some (vStr "42") ∧
    lookupField (serialize_doc [("_id", vId 42), ("title", vStr "t")]) "_id" = none :=
  list_id_serialization.2.1 [("_id", vId 42), ("title", vStr "t")] 42 rfl

/-- C5: when the store connection is unconfigured (`db is None`), the
upsert fails with the server-side store-unavailable error, which is a
different error constructor from any validation failure, and the store
state after the failed call is exactly what it was before. -/
theorem upsert_store_unavailable (p : CreateProgress) (t1 t2 : Nat) :
    upsert_progress none p t1 t2 = .error .storeUnavailable ∧
    (∀ fs, (UpsertError.storeUnavailable : UpsertError) ≠ UpsertError.validationError fs) ∧
    stepUpsert none p t1 t2 = none :=
  ⟨rfl, fun _ h => UpsertError.noConfusion h, rfl⟩

/-- C5 witness: the concrete upsert of ("u", "w") against the unconfigured
store fails with the store-unavailable error and leaves no store state. -/
theorem upsert_store_unavailable_witness :
    upsert_progress none ⟨"u", "w", 10, some 0⟩ 0 1 = .error .storeUnavailable ∧
    (UpsertError.storeUnavailable : UpsertError) ≠ UpsertError.validationError ["percent"] ∧
    stepUpsert none ⟨"u", "w", 10, some 0⟩ 0 1 = none :=
  ⟨(upsert_store_unavailable ⟨"u", "w", 10, some 0⟩ 0 1).1,
   (upsert_store_unavailable ⟨"u", "w", 10, some 0⟩ 0 1).2.1 ["percent"],
   (upsert_store_unavailable ⟨"u", "w", 10, some 0⟩ 0 1).2.2⟩

end WCR
